import Mathlib

/-!
Shallow embedding of the core of the `cqparts` repository:
the thread-profile to cross-section transformer and thread solid builder
(`src/cqparts/types/threads/base.py`) and the coordinate-system algebra
(`src/cqparts/utils/geometry.py`).

Conventions of the embedding:
- Python floats are modelled as exact rationals (`ℚ`); the trigonometric
  image of a point (which only feeds the external kernel) lives in `ℝ`.
- Python exceptions are modelled with `Except PyErr`; a Python function
  that can raise returns `Except PyErr α`.
- Python `float / float` raises `ZeroDivisionError` on a zero divisor,
  modelled by `pyDiv`.  (The one division not routed through `pyDiv` is
  `z / lead` inside `cart2polar`; profiles have positive height by
  construction, so `lead` is nonzero on every path exercised here.)
- The external CAD kernel (cadquery / FreeCAD) is not part of the
  repository; its primitives are modelled per the capabilities the code
  uses: wires carry their edge list, bounding box and length; edges carry
  their geometric kind, endpoints, length, parameter range and native
  parametrisation; the 4x4 affine matrix and plane of the kernel are
  modelled directly (unit-axis planes, the invariant the code relies on).
-/

namespace Cqparts

/-- Python exception kinds raised by the modelled code. -/
inductive PyErr where
  | typeError (msg : String)
  | valueError (msg : String)
  | zeroDivisionError
  | indexError
  | attributeError
  deriving DecidableEq, Repr

/-- Python float division: raises `ZeroDivisionError` on a zero divisor. -/
def pyDiv (a b : ℚ) : Except PyErr ℚ :=
  if b = 0 then .error .zeroDivisionError else .ok (a / b)

/-- A 3d vector over exact rationals (FreeCAD.Base.Vector). -/
@[ext] structure V3 where
  x : ℚ
  y : ℚ
  z : ℚ
  deriving DecidableEq, Repr

instance : Add V3 := ⟨fun a b => ⟨a.x + b.x, a.y + b.y, a.z + b.z⟩⟩

instance : Sub V3 := ⟨fun a b => ⟨a.x - b.x, a.y - b.y, a.z - b.z⟩⟩

instance : Neg V3 := ⟨fun a => ⟨-a.x, -a.y, -a.z⟩⟩

instance : Zero V3 := ⟨⟨0, 0, 0⟩⟩

instance : SMul ℚ V3 := ⟨fun q v => ⟨q * v.x, q * v.y, q * v.z⟩⟩

/-- Dot product of two vectors. -/
def V3.dot (a b : V3) : ℚ := a.x * b.x + a.y * b.y + a.z * b.z

/-- Cross product of two vectors. -/
def V3.cross (a b : V3) : V3 :=
  ⟨a.y * b.z - a.z * b.y, a.z * b.x - a.x * b.z, a.x * b.y - a.y * b.x⟩

/-- A 4x4 homogeneous affine transform with bottom row `[0,0,0,1]`
(the only form the code builds), stored as the three columns of its
linear part plus the translation column (FreeCAD.Matrix). -/
@[ext] structure AffineMatrix where
  c1 : V3
  c2 : V3
  c3 : V3
  t : V3
  deriving DecidableEq, Repr

/-- Linear part of the transform applied to a vector. -/
def AffineMatrix.lin (m : AffineMatrix) (v : V3) : V3 :=
  v.x • m.c1 + v.y • m.c2 + v.z • m.c3

/-- FreeCAD `Matrix.multiply(Vector)`: full affine application. -/
def AffineMatrix.multiplyV (m : AffineMatrix) (v : V3) : V3 :=
  m.lin v + m.t

/-- FreeCAD `Matrix.multiply(Matrix)`: matrix product `m * n`. -/
def AffineMatrix.multiplyM (m n : AffineMatrix) : AffineMatrix :=
  ⟨m.lin n.c1, m.lin n.c2, m.lin n.c3, m.lin n.t + m.t⟩

/-- The identity affine transform. -/
def AffineMatrix.id : AffineMatrix := ⟨⟨1, 0, 0⟩, ⟨0, 1, 0⟩, ⟨0, 0, 1⟩, 0⟩

/-!
`CoordSystem` (src/cqparts/utils/geometry.py) subclasses `cadquery.Plane`:
an origin, an x-axis direction and a z-axis direction (the normal).  The
kernel plane derives `yDir = zDir.cross(xDir)` and the local-to-world
transform `rG` whose columns are the axes and whose translation is the
origin.  The kernel normalises the axis directions on construction; the
frames the code builds and composes are already orthonormal (the
data-model invariant of the spec), for which normalisation is the identity, so the
model stores the direction vectors as given.
-/

/-- An oriented coordinate frame: origin, x-axis direction and z-axis
direction (the plane normal). -/
@[ext] structure CoordSystem where
  origin : V3
  xDir : V3
  zDir : V3
  deriving DecidableEq, Repr

/-- Implied y axis of the kernel plane: `zDir.cross(xDir)`. -/
def CoordSystem.yDir (c : CoordSystem) : V3 := c.zDir.cross c.xDir

/-- The local-to-world transform `rG` of the kernel plane: axis columns
and origin translation. -/
def CoordSystem.local_to_world_transform (c : CoordSystem) : AffineMatrix :=
  ⟨c.xDir, c.yDir, c.zDir, c.origin⟩

/-- CoordSystem.from_transform: transform the reference points `(0,0,0)`,
`(1,0,0)`, `(0,0,1)` by the matrix and subtract the transformed origin to
recover the axis directions. -/
def CoordSystem.from_transform (m : AffineMatrix) : CoordSystem :=
  let offset := m.multiplyV 0
  let x_vertex := m.multiplyV ⟨1, 0, 0⟩
  let z_vertex := m.multiplyV ⟨0, 0, 1⟩
  { origin := offset, xDir := x_vertex - offset, zDir := z_vertex - offset }

/-- CoordSystem composition, the `isinstance(other, CoordSystem)` branch of
`CoordSystem.__add__`: `from_transform` of the product of the two
local-to-world transforms. -/
def CoordSystem.compose (a b : CoordSystem) : CoordSystem :=
  CoordSystem.from_transform
    (a.local_to_world_transform.multiplyM b.local_to_world_transform)

instance : Add CoordSystem := ⟨CoordSystem.compose⟩

/-- The identity frame: origin at zero, standard axes. -/
def CoordSystem.identity : CoordSystem := ⟨0, ⟨1, 0, 0⟩, ⟨0, 0, 1⟩⟩

/-- A frame with orthonormal axis directions (the data-model invariant
maintained by the kernel plane). -/
def CoordSystem.orthonormal (c : CoordSystem) : Prop :=
  c.xDir.dot c.xDir = 1 ∧ c.zDir.dot c.zDir = 1 ∧ c.xDir.dot c.zDir = 0

instance (c : CoordSystem) : Decidable c.orthonormal := by
  unfold CoordSystem.orthonormal; infer_instance

/-!
Thread module (src/cqparts/types/threads/base.py).
-/

/-- Geometric kind tag of a kernel edge (`edge.geomType()`). -/
inductive GeomType where
  | LINE
  | CIRCLE
  | OTHER
  deriving DecidableEq, Repr

/-- A kernel edge (cadquery.Edge): kind tag, endpoints, length, parameter
range upper bound, the underlying curve parametrisation
(`edge.wrapped.Curve.value`) and the edge parametrisation
(`edge.wrapped.valueAt`). -/
structure Edge where
  geomType : GeomType
  startPoint : V3
  endPoint : V3
  length : ℚ
  paramMax : ℚ
  curve : ℚ → V3
  valueAt : ℚ → V3

/-- A kernel wire (cadquery.Wire): its edges, bounding box z-extent and
total length. -/
structure Wire where
  edges : List Edge
  zmin : ℚ
  zmax : ℚ
  length : ℚ

/-- Lead of a profile wire: the z-extent of its bounding box
(`profile_bb.zmax - profile_bb.zmin`), computed identically in
`profile_to_cross_section` and in `Thread.make`. -/
def Wire.lead (w : Wire) : ℚ := w.zmax - w.zmin

/-- Value held by a cadquery.Workplane (`profile.val()`). -/
inductive WPVal where
  | wire (w : Wire)
  | notWire

/-- A cadquery.Workplane as used by the thread code. -/
structure Workplane where
  val : WPVal

/-- A dynamically typed Python value, covering the types the modelled
call sites can receive. -/
inductive PyVal where
  | int (n : ℤ)
  | float (q : ℚ)
  | bool (b : Bool)
  | intList (l : List ℤ)
  | str (s : String)
  | workplane (w : Workplane)
  | coordSys (c : CoordSystem)
  | pyNone

/-- Round-half-to-even on rationals (Python `round` semantics for exact
values): the fractional part decides between floor and floor + 1, an
exact half going to the even neighbour. -/
def roundHalfEven (q : ℚ) : ℤ :=
  if q - Int.floor q < 1 / 2 then Int.floor q
  else if 1 / 2 < q - Int.floor q then Int.floor q + 1
  else if Int.floor q % 2 = 0 then Int.floor q else Int.floor q + 1

/-- Python `round(q, 7)`: round to seven decimal places (half to even). -/
def round7 (q : ℚ) : ℚ := (roundHalfEven (q * 10 ^ 7) : ℚ) / 10 ^ 7

/-- The integer-budget branch of the vertex-count resolution,
`int(ceil(round(e.Length() / wire.Length(), 7) * min_vertices))` for each
edge, with the division `e.Length() / wire.Length()` checked. -/
def resolveCountsInt (budget : ℤ) (edges : List Edge) (wireLength : ℚ) :
    Except PyErr (List ℤ) :=
  edges.mapM (fun e =>
    (pyDiv e.length wireLength).map (fun q => Int.ceil (round7 q * budget)))

/-- get_xz: project a vertex to its (x, z) pair, ignoring y. -/
def get_xz (v : V3) : ℚ × ℚ := (v.x, v.z)

/-- cart2polar: radius is x; angle is `(z / lead) * 2 * pi`, negated
unless `lefthand` is set. -/
noncomputable def cart2polar (lefthand : Bool) (lead : ℚ) (x z : ℚ) :
    ℚ × ℝ :=
  let radius := x
  let angle : ℝ := ((z : ℝ) / (lead : ℝ)) * (2 * Real.pi)
  (radius, if lefthand then angle else -angle)

/-- transform: map a profile vertex on the XZ plane to its equivalent on
the cross-section XY plane. -/
noncomputable def transform (lefthand : Bool) (lead : ℚ) (v : V3) :
    ℝ × ℝ :=
  let rc := cart2polar lefthand lead (get_xz v).1 (get_xz v).2
  ((rc.1 : ℝ) * Real.cos rc.2, (rc.1 : ℝ) * Real.sin rc.2)

/-- One drawing step of the cross-section Workplane. -/
inductive CrossSecOp where
  | threePointArc (point1 point2 : ℝ × ℝ)
  | lineTo (p : ℝ × ℝ)
  | spline (points : List (ℝ × ℝ))

/-- The built cross-section: the initial moveTo point, the drawing steps
for each edge in order, and the final close. -/
structure CrossSection where
  start : ℝ × ℝ
  ops : List CrossSecOp
  closed : Bool

/-- apply_spline: trace along the edge and create a spline from the
transformed vertices.  The step `iter_dist` divides the parameter range
(CIRCLE edges) or the edge length (other edges) by the vertex count; a
zero count raises `ZeroDivisionError` here, before any point is
sampled. -/
noncomputable def apply_spline (lefthand : Bool) (lead : ℚ) (edge : Edge)
    (vert_count : ℤ) : Except PyErr CrossSecOp := do
  let iter_dist ←
    match edge.geomType with
    | .CIRCLE => pyDiv edge.paramMax vert_count
    | _ => pyDiv edge.length vert_count
  let points := (List.range vert_count.toNat).map (fun j =>
    transform lefthand lead (edge.curve (((j : ℚ) + 1) * iter_dist)))
  return .spline points

/-- apply_arc: create an arc using the edge midpoint and endpoint
(intended for vertical lines of the profile). -/
noncomputable def apply_arc (lefthand : Bool) (lead : ℚ) (edge : Edge) :
    CrossSecOp :=
  .threePointArc
    (transform lefthand lead (edge.valueAt (edge.length / 2)))
    (transform lefthand lead (edge.valueAt edge.length))

/-- apply_radial_line: create a straight line to the transformed edge
endpoint. -/
noncomputable def apply_radial_line (lefthand : Bool) (lead : ℚ)
    (edge : Edge) : CrossSecOp :=
  .lineTo (transform lefthand lead edge.endPoint)

/-- Dispatch for one edge of the profile wire: a LINE edge with equal
endpoint x becomes an arc; otherwise a LINE edge with equal endpoint z
becomes a radial line; every other edge becomes a spline. -/
noncomputable def edgeOp (lefthand : Bool) (lead : ℚ) (edge : Edge)
    (vert_count : ℤ) : Except PyErr CrossSecOp :=
  if edge.geomType = .LINE ∧ edge.startPoint.x = edge.endPoint.x then
    .ok (apply_arc lefthand lead edge)
  else if edge.geomType = .LINE ∧ edge.startPoint.z = edge.endPoint.z then
    .ok (apply_radial_line lefthand lead edge)
  else
    apply_spline lefthand lead edge vert_count

/-- Vertex-count resolution of profile_to_cross_section: an int budget is
spread over the edges weighted by length; an explicit list is validated
against the edge count and used verbatim. -/
def resolveCounts (min_vertices : PyVal) (edges : List Edge)
    (wireLength : ℚ) : Except PyErr (List ℤ) :=
  match min_vertices with
  | .int b => resolveCountsInt b edges wireLength
  | .intList l =>
      if l.length ≠ edges.length then .error (.valueError "") else .ok l
  | _ => .error (.typeError "min_vertices must be an int, list, or tuple")

/-- The cross-section building loop of profile_to_cross_section: moveTo
the transformed start of the first edge, then one drawing op per edge. -/
noncomputable def p2csBuild (wire : Wire) (lefthand : Bool)
    (vertices_count : List ℤ) : Except PyErr CrossSection :=
  match wire.edges with
  | [] => .error .indexError
  | e0 :: _ => do
      let start := transform lefthand wire.lead e0.startPoint
      let ops ← (wire.edges.zip vertices_count).mapM
        (fun p => edgeOp lefthand wire.lead p.1 p.2)
      return { start := start, ops := ops, closed := true }

/-- Body of profile_to_cross_section after parameter validation, over the
extracted wire: resolve the vertex counts, then build. -/
noncomputable def p2csCore (wire : Wire) (lefthand : Bool)
    (min_vertices : PyVal) : Except PyErr CrossSection := do
  let vertices_count ← resolveCounts min_vertices wire.edges wire.length
  p2csBuild wire lefthand vertices_count

/-- Does the dynamic value pass the
`isinstance(min_vertices, (int, list, tuple))` check? -/
def isIntListTuple : PyVal → Bool
  | .int _ => true
  | .intList _ => true
  | _ => false

/-- profile_to_cross_section: converts a thread profile to its equivalent
cross-section.  Parameter validation happens first; the cross-section is
only built once both arguments and the wire extraction have been
accepted. -/
noncomputable def profile_to_cross_section (profile : PyVal)
    (lefthand : Bool) (min_vertices : PyVal) :
    Except PyErr CrossSection :=
  match profile with
  | .workplane w =>
      if isIntListTuple min_vertices then
        match w.val with
        | .wire wire => p2csCore wire lefthand min_vertices
        | .notWire =>
            .error (.typeError
              "a valid profile Wire type could not be found in the given Workplane")
      else
        .error (.typeError "min_vertices must be an int, list, or tuple")
  | _ => .error (.typeError "profile must be a Workplane instance")

/-- Concrete edge fixture used to instantiate the claim theorems: the
curve parametrisations are irrelevant to the evaluated properties and are
set to the constant origin. -/
def mkEdge (g : GeomType) (s e : V3) (len pm : ℚ) : Edge :=
  ⟨g, s, e, len, pm, fun _ => 0, fun _ => 0⟩

/-- Parameters of the helix constructed by `helical_path` via the kernel
primitive `FreeCADPart.makeHelix(pitch, length, radius, angle,
lefthand)`. -/
structure HelixPath where
  pitch : ℚ
  length : ℚ
  radius : ℚ
  angle : ℚ
  lefthand : Bool
  deriving DecidableEq, Repr

/-- helical_path: build the helical sweep path from its parameters (the
kernel call is a direct parameter mapping). -/
def helical_path (pitch length radius angle : ℚ) (lefthand : Bool) :
    HelixPath :=
  { pitch := pitch, length := length, radius := radius, angle := angle,
    lefthand := lefthand }

/-- A kernel solid/shape, abstracted to the one attribute the code
inspects (`isValid`) plus an abstract identity so kernel operations can be
distinguished. -/
structure Shape where
  isValid : Bool
  tag : ℕ
  deriving DecidableEq, Repr

/-- The kernel operations `Thread.make` delegates to: the sweep itself,
`TopoShape.sewShape` and `FreeCADPart.Solid`. -/
structure Kernel where
  sweep : CrossSection → HelixPath → Shape
  sewShape : Shape → Shape
  makeSolid : Shape → Shape

/-- Post-sweep repair step of `Thread.make`: an invalid solid is sewn and
reconstructed; a valid one is left untouched.  Total: no exception is
raised for geometric invalidity, and the result may still be invalid. -/
def repairSolid (k : Kernel) (s : Shape) : Shape :=
  if s.isValid then s else k.makeSolid (k.sewShape s)

/-- The Thread class configuration state (class-attribute defaults). -/
structure Thread where
  length : ℚ
  pitch : ℚ
  start_count : ℤ
  radius : ℚ
  inner : Bool
  lefthand : Bool
  deriving DecidableEq, Repr

/-- Class-attribute defaults of `Thread`. -/
def Thread.defaults : Thread :=
  { length := 10, pitch := 1, start_count := 1, radius := 3,
    inner := false, lefthand := false }

/-- The repr of the concrete Thread class, as interpolated into the
unknown-parameter error message. -/
def Thread.clsRepr : String := "<class \x27cqparts.types.threads.base.Thread\x27>"

/-- getattr on a Thread instance for the configuration keys; `none` models
`hasattr(self, key)` being false. -/
def Thread.getKey (t : Thread) (key : String) : Option PyVal :=
  if key = "length" then some (.float t.length)
  else if key = "pitch" then some (.float t.pitch)
  else if key = "start_count" then some (.int t.start_count)
  else if key = "radius" then some (.float t.radius)
  else if key = "inner" then some (.bool t.inner)
  else if key = "lefthand" then some (.bool t.lefthand)
  else none

/-- setattr on a Thread instance for the configuration keys (the value has
already been cast to the variant of the class default). -/
def Thread.setKey (t : Thread) (key : String) (v : PyVal) : Thread :=
  match key, v with
  | "length", .float q => { t with length := q }
  | "pitch", .float q => { t with pitch := q }
  | "start_count", .int n => { t with start_count := n }
  | "radius", .float q => { t with radius := q }
  | "inner", .bool b => { t with inner := b }
  | "lefthand", .bool b => { t with lefthand := b }
  | _, _ => t

/-- Python `int(q)` on a float: truncation toward zero. -/
def pyIntOfFloat (q : ℚ) : ℤ := q.num / q.den

/-- Python `type(default)(value)` for the numeric/boolean configuration
values: cast `v` to the runtime type of `d`.  Casting an incompatible
value raises `TypeError`. -/
def pyCast (d v : PyVal) : Except PyErr PyVal :=
  match d, v with
  | .float _, .float q => .ok (.float q)
  | .float _, .int n => .ok (.float (n : ℚ))
  | .float _, .bool b => .ok (.float (if b then 1 else 0))
  | .int _, .int n => .ok (.int n)
  | .int _, .float q => .ok (.int (pyIntOfFloat q))
  | .int _, .bool b => .ok (.int (if b then 1 else 0))
  | .bool _, .bool b => .ok (.bool b)
  | .bool _, .int n => .ok (.bool (n ≠ 0))
  | .bool _, .float q => .ok (.bool (q ≠ 0))
  | _, _ => .error (.typeError "unsupported cast")

/-- The ValueError message raised by `Thread.__init__` for an unknown
configuration key. -/
def Thread.unknownKeyMsg (key : String) : String :=
  "screw drive class " ++ Thread.clsRepr ++ " does not accept a \x27"
    ++ key ++ "\x27 parameter"

/-- One iteration of the `Thread.__init__` kwargs loop: reject unknown
keys, otherwise cast the value to the type of the class default and store
it.  (All class defaults of `Thread` are non-None, so the
`default_value is None` branch is never taken.) -/
def Thread.initStep (t : Thread) (kv : String × PyVal) :
    Except PyErr Thread :=
  match t.getKey kv.1 with
  | none => .error (.valueError (Thread.unknownKeyMsg kv.1))
  | some default_value => do
      let cast_value ← pyCast default_value kv.2
      return t.setKey kv.1 cast_value

/-- Thread.__init__: fold the kwargs over the class defaults. -/
def Thread.init (kwargs : List (String × PyVal)) : Except PyErr Thread :=
  kwargs.foldlM Thread.initStep Thread.defaults

/-- The result of `Thread.make`, recording the helical path used for the
sweep alongside the built cross-section and returned solid. -/
structure ThreadResult where
  crossSection : CrossSection
  path : HelixPath
  solid : Shape

/-- Thread.make: build the cross-section from the profile (the result of
the subclass-supplied `build_profile`, passed here explicitly), recompute
the lead from the profile bounding box, build the helical path with the
lead as pitch and a fixed radius of 1, sweep, and repair the solid if the
validity check fails. -/
noncomputable def Thread.make (k : Kernel) (t : Thread)
    (profile : Workplane) : Except PyErr ThreadResult := do
  let cross_section ←
    profile_to_cross_section (.workplane profile) t.lefthand (.int 20)
  let wire ←
    match profile.val with
    | .wire w => Except.ok w
    | .notWire => Except.error PyErr.attributeError
  let lead := wire.lead
  let path := helical_path lead t.length 1 0 t.lefthand
  let thread := k.sweep cross_section path
  let final := repairSolid k thread
  return { crossSection := cross_section, path := path, solid := final }

/-!
CoordSystem.__add__ with a dynamically typed right operand
(src/cqparts/utils/geometry.py lines 187-207).  The non-CoordSystem branch
builds its error message with
`"adding a ... {other_cls:r} ... {self_cls:r} ...".format(...)`; the format
spec `r` is not supported by `object.__format__` for class objects, so the
`.format` call itself raises `TypeError` before the intended message is
produced (Python 3 semantics; the intended conversion was `!r`).
-/

/-- Python repr of the type of a dynamic value (the `type(...)` objects
interpolated into the intended message). -/
def pyTypeRepr : PyVal → String
  | .int _ => "<class \x27int\x27>"
  | .float _ => "<class \x27float\x27>"
  | .bool _ => "<class \x27bool\x27>"
  | .intList _ => "<class \x27list\x27>"
  | .str _ => "<class \x27str\x27>"
  | .workplane _ => "<class \x27cadquery.CQ.Workplane\x27>"
  | .coordSys _ => "<class \x27cqparts.utils.geometry.CoordSystem\x27>"
  | .pyNone => "<class \x27NoneType\x27>"

/-- object.__format__ applied to a class object: an empty format spec
yields the repr, any other spec raises `TypeError`. -/
def typeObjectFormat (typeRepr spec : String) : Except PyErr String :=
  if spec = "" then .ok typeRepr
  else .error (.typeError "unsupported format string passed to type.__format__")

/-- The `.format(...)` call of the `__add__` error path: fields are
formatted in template order (`other_cls` first), each with format spec
`r`. -/
def addErrMessage (selfRepr otherRepr : String) : Except PyErr String := do
  let s1 ← typeObjectFormat otherRepr "r"
  let s2 ← typeObjectFormat selfRepr "r"
  return "adding a " ++ s1 ++ " to a " ++ s2 ++ " is not supported"

/-- CoordSystem.__add__: compose with a CoordSystem operand, otherwise
raise.  Whatever `addErrMessage` produces or raises propagates as the
raised exception. -/
def CoordSystem.addPy (self : CoordSystem) (other : PyVal) :
    Except PyErr CoordSystem :=
  match other with
  | .coordSys o => .ok (self + o)
  | _ =>
      match addErrMessage
          "<class \x27cqparts.utils.geometry.CoordSystem\x27>"
          (pyTypeRepr other) with
      | .ok msg => .error (.typeError msg)
      | .error e => .error e

/-!
Concrete fixtures shared by the claim witnesses: a one-edge profile wire
whose single horizontal LINE edge is emitted as a radial line, and a
kernel whose operations mark the shapes they produce.
-/

/-- A horizontal LINE edge from (1,0,0) to (2,0,0) of length 1. -/
def sampleEdgeH : Edge := mkEdge .LINE ⟨1, 0, 0⟩ ⟨2, 0, 0⟩ 1 1

/-- A profile wire holding just `sampleEdgeH`, with z-extent 1 and total
length 1. -/
def sampleWire : Wire := ⟨[sampleEdgeH], 0, 1, 1⟩

/-- A Workplane holding `sampleWire`. -/
def sampleWorkplane : Workplane := ⟨.wire sampleWire⟩

/-- The cross-section built from `sampleWire`. -/
noncomputable def sampleCS : CrossSection :=
  { start := transform false sampleWire.lead sampleEdgeH.startPoint,
    ops := [.lineTo (transform false sampleWire.lead sampleEdgeH.endPoint)],
    closed := true }

/-- A kernel whose sweep returns an invalid shape and whose repair
operations tag their results. -/
def sampleKernel : Kernel :=
  ⟨fun _ _ => ⟨false, 0⟩, fun s => ⟨false, s.tag + 1⟩,
    fun s => ⟨false, s.tag + 2⟩⟩

/-- An edge falls through to the spline branch of the dispatch: it is
neither a vertical LINE nor a horizontal LINE. -/
def splineDispatched (e : Edge) : Prop :=
  ¬(e.geomType = .LINE ∧ e.startPoint.x = e.endPoint.x) ∧
  ¬(e.geomType = .LINE ∧ e.startPoint.z = e.endPoint.z)

/-- A slanted LINE edge (spline-dispatched) of length 1. -/
def badEdgeSlant : Edge := mkEdge .LINE ⟨0, 0, 0⟩ ⟨1, 0, 1⟩ 1 1

/-- A horizontal LINE edge of length 999999999, dwarfing
`badEdgeSlant`. -/
def badEdgeRest : Edge := mkEdge .LINE ⟨1, 0, 1⟩ ⟨2, 0, 1⟩ 999999999 1

/-- A profile wire on which the integer budget 20 resolves the slanted
vertex count of the slanted edge to 0: its length ratio 1/10^9 rounds to 0 at 7
decimal places. -/
def badWire : Wire := ⟨[badEdgeSlant, badEdgeRest], 0, 1, 10 ^ 9⟩

/-- Three edges of total length 10^9 whose length ratios all round
upward at the seventh decimal place, so an integer budget of 10^8
resolves to counts summing to 10 more than the budget. -/
def ceEdges : List Edge :=
  [mkEdge .OTHER 0 0 249999951 1, mkEdge .OTHER 0 0 249999951 1,
    mkEdge .OTHER 0 0 500000098 1]

/-- Two unit edges, used with a negative integer budget. -/
def negEdges : List Edge := [mkEdge .OTHER 0 0 1 1, mkEdge .OTHER 0 0 1 1]

/-- Two edges of lengths 1 and 3, used to witness the amended
vertex-count claim. -/
def witEdges : List Edge := [mkEdge .OTHER 0 0 1 1, mkEdge .OTHER 0 0 3 1]

/-!
Helper lemmas shared by the claim theorems.
-/

theorem V3.add_def (a b : V3) : a + b = ⟨a.x + b.x, a.y + b.y, a.z + b.z⟩ := rfl

theorem V3.sub_def (a b : V3) : a - b = ⟨a.x - b.x, a.y - b.y, a.z - b.z⟩ := rfl

theorem V3.smul_def (q : ℚ) (v : V3) : q • v = ⟨q * v.x, q * v.y, q * v.z⟩ := rfl

theorem V3.zero_def : (0 : V3) = ⟨0, 0, 0⟩ := rfl

theorem V3.neg_def (a : V3) : -a = ⟨-a.x, -a.y, -a.z⟩ := rfl

theorem AffineMatrix.lin_add (m : AffineMatrix) (a b : V3) :
    m.lin (a + b) = m.lin a + m.lin b := by
  ext <;> simp [AffineMatrix.lin, V3.add_def, V3.smul_def] <;> ring

theorem AffineMatrix.lin_lin (m n : AffineMatrix) (v : V3) :
    (m.multiplyM n).lin v = m.lin (n.lin v) := by
  ext <;>
    simp [AffineMatrix.lin, AffineMatrix.multiplyM, V3.add_def, V3.smul_def] <;>
    ring

theorem AffineMatrix.multiplyM_assoc (m n p : AffineMatrix) :
    (m.multiplyM n).multiplyM p = m.multiplyM (n.multiplyM p) := by
  ext <;>
    simp [AffineMatrix.multiplyM, AffineMatrix.lin, V3.add_def, V3.smul_def] <;>
    ring

theorem AffineMatrix.id_multiplyM (m : AffineMatrix) :
    AffineMatrix.id.multiplyM m = m := by
  ext <;>
    simp [AffineMatrix.multiplyM, AffineMatrix.id, AffineMatrix.lin,
      V3.add_def, V3.smul_def, V3.zero_def]

theorem AffineMatrix.multiplyM_id (m : AffineMatrix) :
    m.multiplyM AffineMatrix.id = m := by
  ext <;>
    simp [AffineMatrix.multiplyM, AffineMatrix.id, AffineMatrix.lin,
      V3.add_def, V3.smul_def, V3.zero_def]

/-! Cross-product algebra used to show the linear part of an orthonormal
frame transform preserves cross products. -/

theorem V3.cross_self (a : V3) : a.cross a = 0 := by
  ext <;> simp [V3.cross, V3.zero_def] <;> ring

theorem V3.cross_anticomm (a b : V3) : a.cross b = -(b.cross a) := by
  ext <;> simp [V3.cross, V3.neg_def] <;> ring

theorem V3.cross_add_left (a b c : V3) :
    (a + b).cross c = a.cross c + b.cross c := by
  ext <;> simp [V3.cross, V3.add_def] <;> ring

theorem V3.cross_add_right (a b c : V3) :
    a.cross (b + c) = a.cross b + a.cross c := by
  ext <;> simp [V3.cross, V3.add_def] <;> ring

theorem V3.cross_smul_left (q : ℚ) (a b : V3) :
    (q • a).cross b = q • a.cross b := by
  ext <;> simp [V3.cross, V3.smul_def] <;> ring

theorem V3.cross_smul_right (q : ℚ) (a b : V3) :
    a.cross (q • b) = q • a.cross b := by
  ext <;> simp [V3.cross, V3.smul_def] <;> ring

/-- Vector triple product `a x (b x a) = (a.a) b - (a.b) a`. -/
theorem V3.cross_cross_self (a b : V3) :
    a.cross (b.cross a) = (a.dot a) • b - (a.dot b) • a := by
  ext <;> simp [V3.cross, V3.dot, V3.smul_def, V3.sub_def] <;> ring

/-- Vector triple product `(b x a) x b = (b.b) a - (a.b) b`. -/
theorem V3.cross_self_cross (a b : V3) :
    (b.cross a).cross b = (b.dot b) • a - (a.dot b) • b := by
  ext <;> simp [V3.cross, V3.dot, V3.smul_def, V3.sub_def] <;> ring

theorem CoordSystem.add_compose (a b : CoordSystem) : a + b = a.compose b := rfl

theorem CoordSystem.from_transform_rG (c : CoordSystem) :
    CoordSystem.from_transform c.local_to_world_transform = c := by
  ext <;>
    simp [CoordSystem.from_transform, CoordSystem.local_to_world_transform,
      AffineMatrix.multiplyV, AffineMatrix.lin, V3.add_def, V3.sub_def,
      V3.smul_def, V3.zero_def]

theorem CoordSystem.rG_from_transform (m : AffineMatrix)
    (h : m.c2 = m.c3.cross m.c1) :
    (CoordSystem.from_transform m).local_to_world_transform = m := by
  have e1 : (CoordSystem.from_transform m).xDir = m.c1 := by
    ext <;>
      simp [CoordSystem.from_transform, AffineMatrix.multiplyV,
        AffineMatrix.lin, V3.add_def, V3.sub_def, V3.smul_def, V3.zero_def]
  have e3 : (CoordSystem.from_transform m).zDir = m.c3 := by
    ext <;>
      simp [CoordSystem.from_transform, AffineMatrix.multiplyV,
        AffineMatrix.lin, V3.add_def, V3.sub_def, V3.smul_def, V3.zero_def]
  have e0 : (CoordSystem.from_transform m).origin = m.t := by
    ext <;>
      simp [CoordSystem.from_transform, AffineMatrix.multiplyV,
        AffineMatrix.lin, V3.add_def, V3.sub_def, V3.smul_def, V3.zero_def]
  ext1 <;>
    simp [CoordSystem.local_to_world_transform, CoordSystem.yDir, e0, e1, e3, h]

/-- The linear part of an orthonormal frame transform preserves the cross
product. -/
theorem CoordSystem.lin_cross (c : CoordSystem) (h : c.orthonormal)
    (u v : V3) :
    (c.local_to_world_transform.lin u).cross (c.local_to_world_transform.lin v)
      = c.local_to_world_transform.lin (u.cross v) := by
  obtain ⟨hx, hz, hxz⟩ := h
  set X := c.xDir with hX
  set Z := c.zDir with hZ
  have hXY : X.cross (Z.cross X) = Z := by
    rw [V3.cross_cross_self, hx, hxz]
    ext <;> simp [V3.smul_def, V3.sub_def]
  have hYZ : (Z.cross X).cross Z = X := by
    rw [V3.cross_self_cross, hz, hxz]
    ext <;> simp [V3.smul_def, V3.sub_def]
  have hYX : (Z.cross X).cross X = -Z := by
    rw [V3.cross_anticomm, hXY]
  have hZY : Z.cross (Z.cross X) = -X := by
    rw [V3.cross_anticomm, hYZ]
  have lin_def : ∀ w : V3, c.local_to_world_transform.lin w
      = w.x • X + w.y • (Z.cross X) + w.z • Z := by
    intro w
    simp [AffineMatrix.lin, CoordSystem.local_to_world_transform,
      CoordSystem.yDir]
  rw [lin_def u, lin_def v, lin_def (u.cross v)]
  simp only [V3.cross_add_left, V3.cross_add_right, V3.cross_smul_left,
    V3.cross_smul_right, hXY, hYX, hYZ, hZY]
  ext <;>
    simp [V3.cross, V3.add_def, V3.sub_def, V3.smul_def, V3.neg_def] <;>
    ring

/-- The local-to-world transform of a composition of frames is the product
of their local-to-world transforms, provided the left frame is
orthonormal. -/
theorem CoordSystem.rG_compose (a b : CoordSystem) (ha : a.orthonormal) :
    (a + b).local_to_world_transform
      = a.local_to_world_transform.multiplyM b.local_to_world_transform := by
  rw [CoordSystem.add_compose, CoordSystem.compose]
  apply CoordSystem.rG_from_transform
  show (a.local_to_world_transform.lin b.yDir) = _
  rw [CoordSystem.yDir, ← CoordSystem.lin_cross a ha b.zDir b.xDir]
  rfl

theorem except_bind_ok {α β : Type} {x : Except PyErr α}
    {f : α → Except PyErr β} {b : β} (h : (x >>= f) = .ok b) :
    ∃ a, x = .ok a ∧ f a = .ok b := by
  cases x with
  | error e => cases h
  | ok a => exact ⟨a, rfl, h⟩

theorem exceptMapM_ok_length {α β : Type} (f : α → Except PyErr β) :
    ∀ (xs : List α) (ys : List β), xs.mapM f = .ok ys →
      ys.length = xs.length := by
  intro xs
  induction xs with
  | nil => intro ys h; rw [List.mapM_nil] at h; cases h; rfl
  | cons a as ih =>
      intro ys h
      rw [List.mapM_cons] at h
      cases hfa : f a with
      | error e => rw [hfa] at h; cases h
      | ok b =>
          rw [hfa] at h
          cases hrest : as.mapM f with
          | error e => rw [hrest] at h; cases h
          | ok bs =>
              rw [hrest] at h
              simp only [bind, Except.bind, pure, Except.pure] at h
              cases h
              simp [ih bs hrest]

theorem resolveCounts_ok_length (mv : PyVal) (edges : List Edge)
    (L : ℚ) (counts : List ℤ) (h : resolveCounts mv edges L = .ok counts) :
    counts.length = edges.length := by
  cases mv with
  | int b =>
      exact exceptMapM_ok_length _ edges counts h
  | intList l =>
      have h' : (if l.length ≠ edges.length then
          (Except.error (PyErr.valueError "") : Except PyErr (List ℤ))
        else Except.ok l) = Except.ok counts := h
      split_ifs at h' with hlen <;> cases h' <;> omega
  | _ => cases h

theorem p2csBuild_ok_ops_length (wire : Wire) (lefthand : Bool)
    (counts : List ℤ) (cs : CrossSection)
    (hlen : counts.length = wire.edges.length)
    (h : p2csBuild wire lefthand counts = .ok cs) :
    cs.ops.length = wire.edges.length := by
  unfold p2csBuild at h
  cases hed : wire.edges with
  | nil => rw [hed] at h; cases h
  | cons e0 rest =>
      rw [hed] at h
      obtain ⟨ops, hops, hret⟩ := except_bind_ok h
      have hops_len := exceptMapM_ok_length _ _ _ hops
      cases hret
      simp only [List.length_zip, hed] at hops_len ⊢
      rw [hed] at hlen
      omega

theorem sample_counts :
    resolveCounts (.int 20) sampleWire.edges sampleWire.length = .ok [20] := by
  show resolveCountsInt 20 [sampleEdgeH] 1 = .ok [20]
  unfold resolveCountsInt
  rw [List.mapM_cons, List.mapM_nil]
  have hdiv : pyDiv sampleEdgeH.length 1 = .ok 1 := by
    norm_num [pyDiv, sampleEdgeH, mkEdge]
  simp only [hdiv, Except.map, bind, Except.bind, pure, Except.pure]
  norm_num [round7, roundHalfEven]

theorem sample_edgeOp :
    edgeOp false sampleWire.lead sampleEdgeH 20 =
      .ok (.lineTo (transform false sampleWire.lead sampleEdgeH.endPoint)) := by
  rw [edgeOp, if_neg, if_pos]
  · rfl
  · exact ⟨rfl, rfl⟩
  · intro hc
    have h2 := hc.2
    norm_num [sampleEdgeH, mkEdge] at h2

theorem sample_build : p2csBuild sampleWire false [20] = .ok sampleCS := by
  have hstep : p2csBuild sampleWire false [20] =
      ([(sampleEdgeH, (20 : ℤ))].mapM
        (fun p => edgeOp false sampleWire.lead p.1 p.2)) >>=
        (fun ops =>
          (pure ⟨transform false sampleWire.lead sampleEdgeH.startPoint,
            ops, true⟩ : Except PyErr CrossSection)) := rfl
  rw [hstep, List.mapM_cons, List.mapM_nil, sample_edgeOp]
  rfl

theorem sample_p2csCore :
    p2csCore sampleWire false (.int 20) = .ok sampleCS := by
  show resolveCounts (.int 20) sampleWire.edges sampleWire.length >>=
    (fun vc => p2csBuild sampleWire false vc) = .ok sampleCS
  rw [sample_counts]
  show p2csBuild sampleWire false [20] = .ok sampleCS
  exact sample_build

theorem sample_p2cs :
    profile_to_cross_section (.workplane sampleWorkplane) false (.int 20) =
      .ok sampleCS := by
  show p2csCore sampleWire false (.int 20) = .ok sampleCS
  exact sample_p2csCore

theorem sample_make :
    Thread.make sampleKernel Thread.defaults sampleWorkplane =
      .ok { crossSection := sampleCS,
            path := helical_path sampleWire.lead 10 1 0 false,
            solid := repairSolid sampleKernel
              (sampleKernel.sweep sampleCS
                (helical_path sampleWire.lead 10 1 0 false)) } := by
  unfold Thread.make
  simp only [Thread.defaults]
  rw [sample_p2cs]
  rfl

/-!
Claim theorems.
-/

/-- C2: each profile edge is emitted as exactly one drawing op (the built
cross-section has one op per edge), dispatched on the edge kind: a LINE
edge with constant x becomes a three-point arc through the transformed
midpoint and endpoint; a (non-degenerate) LINE edge with constant z
becomes a straight line to the transformed endpoint; every other edge
becomes a spline through vert_count points sampled along the native
parametrisation (parameter range for CIRCLE edges, arc length
otherwise). -/
theorem claim_C2_theorem (lefthand : Bool) (lead : ℚ) (e : Edge) (vc : ℤ)
    (hdeg : e.startPoint.x ≠ e.endPoint.x ∨ e.startPoint.z ≠ e.endPoint.z)
    (hvc : 0 < vc) :
    (e.geomType = .LINE → e.startPoint.x = e.endPoint.x →
      edgeOp lefthand lead e vc = .ok (.threePointArc
        (transform lefthand lead (e.valueAt (e.length / 2)))
        (transform lefthand lead (e.valueAt e.length)))) ∧
    (e.geomType = .LINE → e.startPoint.z = e.endPoint.z →
      edgeOp lefthand lead e vc =
        .ok (.lineTo (transform lefthand lead e.endPoint))) ∧
    (¬(e.geomType = .LINE ∧
        (e.startPoint.x = e.endPoint.x ∨ e.startPoint.z = e.endPoint.z)) →
      edgeOp lefthand lead e vc = .ok (.spline
        ((List.range vc.toNat).map (fun j =>
          transform lefthand lead (e.curve (((j : ℚ) + 1) *
            ((match e.geomType with
              | .CIRCLE => e.paramMax
              | _ => e.length) / (vc : ℚ)))))))) ∧
    (∀ (wire : Wire) (mv : PyVal) (cs : CrossSection),
      p2csCore wire lefthand mv = .ok cs →
      cs.ops.length = wire.edges.length) := by
  have hvc' : ((vc : ℚ)) ≠ 0 := by
    exact_mod_cast hvc.ne'
  refine ⟨?_, ?_, ?_, ?_⟩
  · intro h1 h2
    rw [edgeOp, if_pos ⟨h1, h2⟩]
    rfl
  · intro h1 h2
    have hx : e.startPoint.x ≠ e.endPoint.x := by
      rcases hdeg with h | h
      · exact h
      · exact absurd h2 h
    rw [edgeOp, if_neg (fun hc => hx hc.2), if_pos ⟨h1, h2⟩]
    rfl
  · intro hn
    have hc1 : ¬(e.geomType = .LINE ∧ e.startPoint.x = e.endPoint.x) :=
      fun hc => hn ⟨hc.1, Or.inl hc.2⟩
    have hc2 : ¬(e.geomType = .LINE ∧ e.startPoint.z = e.endPoint.z) :=
      fun hc => hn ⟨hc.1, Or.inr hc.2⟩
    rw [edgeOp, if_neg hc1, if_neg hc2]
    cases hg : e.geomType <;>
      simp [apply_spline, hg, pyDiv, hvc', bind, Except.bind, pure,
        Except.pure]
  · intro wire mv cs h
    obtain ⟨counts, hrc, hb⟩ := except_bind_ok h
    exact p2csBuild_ok_ops_length wire lefthand counts cs
      (resolveCounts_ok_length mv wire.edges wire.length counts hrc) hb

/-- C3: for every profile point (x, z) with lead > 0, the point-transform
used by profile_to_cross_section computes radius = x and angle =
(z / lead) * 2 * pi, negates the angle exactly when lefthand is False, and
returns (radius * cos angle, radius * sin angle); the angle computed with
lefthand = False is the exact negation of the angle computed with
lefthand = True. -/
theorem claim_C3_theorem (lefthand : Bool) (lead x y z : ℚ)
    (_hlead : 0 < lead) :
    (cart2polar lefthand lead x z).1 = x ∧
    (cart2polar lefthand lead x z).2 =
      (if lefthand then 1 else -1) * (((z : ℝ) / (lead : ℝ)) * (2 * Real.pi)) ∧
    transform lefthand lead ⟨x, y, z⟩ =
      (((cart2polar lefthand lead x z).1 : ℝ)
          * Real.cos (cart2polar lefthand lead x z).2,
       ((cart2polar lefthand lead x z).1 : ℝ)
          * Real.sin (cart2polar lefthand lead x z).2) ∧
    (cart2polar false lead x z).2 = -(cart2polar true lead x z).2 := by
  cases lefthand <;>
    simp [cart2polar, transform, get_xz]

theorem claim_C3_witness :
    (0 : ℚ) < 2 ∧
    ((cart2polar true (2 : ℚ) 3 1).1 = 3 ∧
     (cart2polar true (2 : ℚ) 3 1).2 =
       (if true then 1 else -1) * (((1 : ℚ) : ℝ) / ((2 : ℚ) : ℝ) * (2 * Real.pi)) ∧
     transform true (2 : ℚ) ⟨3, 0, 1⟩ =
       (((cart2polar true (2 : ℚ) 3 1).1 : ℝ)
           * Real.cos (cart2polar true (2 : ℚ) 3 1).2,
        ((cart2polar true (2 : ℚ) 3 1).1 : ℝ)
           * Real.sin (cart2polar true (2 : ℚ) 3 1).2) ∧
     (cart2polar false (2 : ℚ) 3 1).2 = -(cart2polar true (2 : ℚ) 3 1).2) :=
  ⟨by norm_num, claim_C3_theorem true 2 3 0 1 (by norm_num)⟩

theorem claim_C2_witness :
    edgeOp false 2 (mkEdge .LINE ⟨2, 0, 0⟩ ⟨2, 0, 1⟩ 1 1) 4 =
      .ok (.threePointArc
        (transform false 2
          ((mkEdge .LINE ⟨2, 0, 0⟩ ⟨2, 0, 1⟩ 1 1).valueAt
            ((mkEdge .LINE ⟨2, 0, 0⟩ ⟨2, 0, 1⟩ 1 1).length / 2)))
        (transform false 2
          ((mkEdge .LINE ⟨2, 0, 0⟩ ⟨2, 0, 1⟩ 1 1).valueAt
            (mkEdge .LINE ⟨2, 0, 0⟩ ⟨2, 0, 1⟩ 1 1).length))) ∧
    edgeOp false 2 (mkEdge .LINE ⟨1, 0, 0⟩ ⟨2, 0, 0⟩ 1 1) 4 =
      .ok (.lineTo (transform false 2
        (mkEdge .LINE ⟨1, 0, 0⟩ ⟨2, 0, 0⟩ 1 1).endPoint)) ∧
    edgeOp false 2 (mkEdge .CIRCLE ⟨1, 0, 0⟩ ⟨1, 0, 1⟩ 2 5) 4 =
      .ok (.spline ((List.range (4 : ℤ).toNat).map (fun j =>
        transform false 2 ((mkEdge .CIRCLE ⟨1, 0, 0⟩ ⟨1, 0, 1⟩ 2 5).curve
          (((j : ℚ) + 1) *
            ((match (mkEdge .CIRCLE ⟨1, 0, 0⟩ ⟨1, 0, 1⟩ 2 5).geomType with
              | .CIRCLE => (mkEdge .CIRCLE ⟨1, 0, 0⟩ ⟨1, 0, 1⟩ 2 5).paramMax
              | _ => (mkEdge .CIRCLE ⟨1, 0, 0⟩ ⟨1, 0, 1⟩ 2 5).length) /
              ((4 : ℤ) : ℚ))))))) ∧
    (∃ cs, p2csCore sampleWire false (.int 20) = .ok cs ∧
      cs.ops.length = 1) := by
  have hV := claim_C2_theorem false 2 (mkEdge .LINE ⟨2, 0, 0⟩ ⟨2, 0, 1⟩ 1 1) 4
    (Or.inr (by norm_num [mkEdge])) (by norm_num)
  have hH := claim_C2_theorem false 2 (mkEdge .LINE ⟨1, 0, 0⟩ ⟨2, 0, 0⟩ 1 1) 4
    (Or.inl (by norm_num [mkEdge])) (by norm_num)
  have hS := claim_C2_theorem false 2 (mkEdge .CIRCLE ⟨1, 0, 0⟩ ⟨1, 0, 1⟩ 2 5) 4
    (Or.inr (by norm_num [mkEdge])) (by norm_num)
  refine ⟨hV.1 rfl rfl, hH.2.1 rfl rfl, hS.2.2.1 (by simp [mkEdge]), ?_⟩
  exact ⟨sampleCS, sample_p2csCore,
    hH.2.2.2 sampleWire (.int 20) sampleCS sample_p2csCore⟩

/-- C4: profile_to_cross_section rejects a non-Workplane profile with a
type error, rejects a min_vertices that is neither int nor list/tuple with
a type error, and rejects an explicit list whose length differs from the
edge count with a value error; in each case the function returns the error
directly, for every wire, so no cross-section geometry is constructed. -/
theorem claim_C4_theorem (lefthand : Bool) :
    (∀ (p : PyVal) (mv : PyVal), (∀ w, p ≠ .workplane w) →
      profile_to_cross_section p lefthand mv =
        .error (.typeError "profile must be a Workplane instance")) ∧
    (∀ (w : Workplane) (mv : PyVal), isIntListTuple mv = false →
      profile_to_cross_section (.workplane w) lefthand mv =
        .error (.typeError "min_vertices must be an int, list, or tuple")) ∧
    (∀ (wire : Wire) (l : List ℤ), l.length ≠ wire.edges.length →
      profile_to_cross_section (.workplane ⟨.wire wire⟩) lefthand
          (.intList l) =
        .error (.valueError "")) := by
  refine ⟨?_, ?_, ?_⟩
  · intro p mv hp
    cases p with
    | workplane w => exact absurd rfl (hp w)
    | _ => rfl
  · intro w mv hmv
    simp [profile_to_cross_section, hmv]
  · intro wire l hl
    simp only [profile_to_cross_section, isIntListTuple, if_true]
    simp only [p2csCore, resolveCounts]
    rw [if_pos hl]
    rfl

theorem claim_C4_witness :
    ((∀ w, (PyVal.int 3) ≠ .workplane w) ∧
      profile_to_cross_section (.int 3) false (.int 20) =
        .error (.typeError "profile must be a Workplane instance")) ∧
    (isIntListTuple (.str "20") = false ∧
      profile_to_cross_section (.workplane ⟨.notWire⟩) false (.str "20") =
        .error (.typeError "min_vertices must be an int, list, or tuple")) ∧
    (([] : List ℤ).length ≠
        (Wire.mk [⟨.LINE, ⟨1, 0, 0⟩, ⟨2, 0, 0⟩, 1, 1, fun _ => 0,
          fun _ => 0⟩] 0 0 1).edges.length ∧
      profile_to_cross_section
          (.workplane ⟨.wire (Wire.mk [⟨.LINE, ⟨1, 0, 0⟩, ⟨2, 0, 0⟩, 1, 1,
            fun _ => 0, fun _ => 0⟩] 0 0 1)⟩) false (.intList []) =
        .error (.valueError "")) :=
  ⟨⟨fun w => by simp, (claim_C4_theorem false).1 _ (.int 20)
        (fun w => by simp)⟩,
    ⟨rfl, (claim_C4_theorem false).2.1 _ _ rfl⟩,
    ⟨by simp, (claim_C4_theorem false).2.2 _ _ (by simp)⟩⟩

/-- C5: Thread construction rejects a keyword whose name is not a
configuration attribute with a ValueError whose message names the key and
the concrete class; the value of an accepted keyword is cast to the type of the
class default and stored. -/
theorem claim_C5_theorem :
    (∀ (k : String) (v : PyVal) (rest : List (String × PyVal)),
      Thread.defaults.getKey k = none →
      Thread.init ((k, v) :: rest) =
        .error (.valueError (Thread.unknownKeyMsg k))) ∧
    (∀ (t : Thread) (k : String) (v d c : PyVal),
      t.getKey k = some d → pyCast d v = .ok c →
      t.initStep (k, v) = .ok (t.setKey k c) ∧
      (t.setKey k c).getKey k = some c) := by
  constructor
  · intro k v rest hk
    simp only [Thread.init, List.foldlM_cons, Thread.initStep, hk]
    rfl
  · intro t k v d c hd hc
    refine ⟨by simp [Thread.initStep, hd, hc], ?_⟩
    unfold Thread.getKey at hd ⊢
    unfold Thread.setKey
    split_ifs at hd with h1 h2 h3 h4 h5 h6 <;>
      (subst_vars
       cases d <;> simp at hd <;>
         cases v <;> simp [pyCast] at hc <;>
           simp [← hc, Thread.getKey])

theorem claim_C5_witness :
    (Thread.defaults.getKey "foo" = none ∧
      Thread.init [("foo", .int 1)] =
        .error (.valueError (Thread.unknownKeyMsg "foo"))) ∧
    (Thread.defaults.getKey "length" = some (.float 10) ∧
      pyCast (.float 10) (.int 7) = .ok (.float 7) ∧
      Thread.defaults.initStep ("length", .int 7) =
        .ok (Thread.defaults.setKey "length" (.float 7)) ∧
      (Thread.defaults.setKey "length" (.float 7)).getKey "length" =
        some (.float 7)) :=
  ⟨⟨rfl, claim_C5_theorem.1 "foo" (.int 1) [] rfl⟩,
    ⟨rfl, by norm_num [pyCast],
      (claim_C5_theorem.2 Thread.defaults "length" (.int 7) (.float 10)
          (.float 7) rfl (by norm_num [pyCast])).1,
      (claim_C5_theorem.2 Thread.defaults "length" (.int 7) (.float 10)
          (.float 7) rfl (by norm_num [pyCast])).2⟩⟩

/-- C6: composing a CoordSystem with a non-CoordSystem operand does raise
a type error, but its message is the one produced by the failing
`.format` call (the format spec `:r` is invalid for class objects), which
names neither operand type; the intended message is never built.  The
theorem records the code behaviour at the failing inputs. -/
theorem claim_C6_theorem :
    CoordSystem.identity.addPy (.int 5) =
      .error (.typeError "unsupported format string passed to type.__format__") ∧
    CoordSystem.identity.addPy (.str "x") =
      .error (.typeError "unsupported format string passed to type.__format__") ∧
    addErrMessage "<class \x27cqparts.utils.geometry.CoordSystem\x27>"
        (pyTypeRepr (.int 5)) =
      .error (.typeError "unsupported format string passed to type.__format__") ∧
    "unsupported format string passed to type.__format__" ≠
      "adding a " ++ pyTypeRepr (.int 5) ++ " to a "
        ++ "<class \x27cqparts.utils.geometry.CoordSystem\x27>"
        ++ " is not supported" := by
  refine ⟨rfl, rfl, rfl, by decide⟩

/-- Identity frame transform is the identity matrix. -/
theorem rG_identity :
    CoordSystem.identity.local_to_world_transform = AffineMatrix.id := by
  ext <;>
    simp [CoordSystem.local_to_world_transform, CoordSystem.identity,
      CoordSystem.yDir, V3.cross, AffineMatrix.id, V3.zero_def]

/-- C7: the identity frame (origin at zero, standard axes) is a two-sided
identity for CoordSystem composition, and composition is associative
(exactly, hence within any tolerance), for orthonormal frames A and B
(C may be arbitrary). -/
theorem claim_C7_theorem (A B C : CoordSystem)
    (hA : A.orthonormal) (hB : B.orthonormal) :
    A + CoordSystem.identity = A ∧
    CoordSystem.identity + A = A ∧
    (A + B) + C = A + (B + C) := by
  refine ⟨?_, ?_, ?_⟩
  · rw [CoordSystem.add_compose, CoordSystem.compose, rG_identity,
      AffineMatrix.multiplyM_id, CoordSystem.from_transform_rG]
  · rw [CoordSystem.add_compose, CoordSystem.compose, rG_identity,
      AffineMatrix.id_multiplyM, CoordSystem.from_transform_rG]
  · have h1 := CoordSystem.rG_compose A B hA
    have h2 := CoordSystem.rG_compose B C hB
    calc (A + B) + C
        = CoordSystem.from_transform
            ((A + B).local_to_world_transform.multiplyM
              C.local_to_world_transform) := rfl
      _ = CoordSystem.from_transform
            ((A.local_to_world_transform.multiplyM
                B.local_to_world_transform).multiplyM
              C.local_to_world_transform) := by rw [h1]
      _ = CoordSystem.from_transform
            (A.local_to_world_transform.multiplyM
              (B.local_to_world_transform.multiplyM
                C.local_to_world_transform)) := by
            rw [AffineMatrix.multiplyM_assoc]
      _ = CoordSystem.from_transform
            (A.local_to_world_transform.multiplyM
              (B + C).local_to_world_transform) := by rw [h2]
      _ = A + (B + C) := rfl

theorem claim_C7_witness :
    (CoordSystem.mk ⟨1, 2, -1⟩ ⟨3/5, 4/5, 0⟩ ⟨0, 0, 1⟩).orthonormal ∧
    (CoordSystem.mk ⟨0, 1, 0⟩ ⟨0, 0, 1⟩ ⟨1, 0, 0⟩).orthonormal ∧
    (CoordSystem.mk ⟨1, 2, -1⟩ ⟨3/5, 4/5, 0⟩ ⟨0, 0, 1⟩ + CoordSystem.identity
        = CoordSystem.mk ⟨1, 2, -1⟩ ⟨3/5, 4/5, 0⟩ ⟨0, 0, 1⟩ ∧
      CoordSystem.identity + CoordSystem.mk ⟨1, 2, -1⟩ ⟨3/5, 4/5, 0⟩ ⟨0, 0, 1⟩
        = CoordSystem.mk ⟨1, 2, -1⟩ ⟨3/5, 4/5, 0⟩ ⟨0, 0, 1⟩ ∧
      (CoordSystem.mk ⟨1, 2, -1⟩ ⟨3/5, 4/5, 0⟩ ⟨0, 0, 1⟩
          + CoordSystem.mk ⟨0, 1, 0⟩ ⟨0, 0, 1⟩ ⟨1, 0, 0⟩)
          + CoordSystem.mk ⟨5, 0, 0⟩ ⟨2, 1, 0⟩ ⟨0, 0, 3⟩
        = CoordSystem.mk ⟨1, 2, -1⟩ ⟨3/5, 4/5, 0⟩ ⟨0, 0, 1⟩
          + (CoordSystem.mk ⟨0, 1, 0⟩ ⟨0, 0, 1⟩ ⟨1, 0, 0⟩
            + CoordSystem.mk ⟨5, 0, 0⟩ ⟨2, 1, 0⟩ ⟨0, 0, 3⟩)) :=
  ⟨by norm_num [CoordSystem.orthonormal, V3.dot],
    by norm_num [CoordSystem.orthonormal, V3.dot],
    claim_C7_theorem _ _ _
      (by norm_num [CoordSystem.orthonormal, V3.dot])
      (by norm_num [CoordSystem.orthonormal, V3.dot])⟩

/-- C8: every successful Thread.make sweeps along a helical path whose
pitch is the lead (the z-extent of the built profile bounding box,
computed by the same `Wire.lead` used inside profile_to_cross_section),
whose length and handedness are the configured ones, and whose radius is
exactly 1 regardless of the configured thread radius. -/
theorem claim_C8_theorem (k : Kernel) (t : Thread) (profile : Workplane)
    (wire : Wire) (r : ThreadResult)
    (hw : profile.val = .wire wire)
    (h : Thread.make k t profile = .ok r) :
    r.path = helical_path wire.lead t.length 1 0 t.lefthand ∧
    r.path.pitch = wire.zmax - wire.zmin ∧
    r.path.radius = 1 := by
  unfold Thread.make at h
  cases hcs : profile_to_cross_section (.workplane profile) t.lefthand
      (.int 20) with
  | error e => rw [hcs] at h; cases h
  | ok cs =>
      rw [hcs, hw] at h
      simp only [bind, Except.bind, pure, Except.pure] at h
      cases h
      exact ⟨rfl, rfl, rfl⟩

theorem claim_C8_witness :
    sampleWorkplane.val = .wire sampleWire ∧
    ∃ r, Thread.make sampleKernel Thread.defaults sampleWorkplane = .ok r ∧
      r.path = helical_path sampleWire.lead Thread.defaults.length 1 0
        Thread.defaults.lefthand ∧
      r.path.pitch = sampleWire.zmax - sampleWire.zmin ∧
      r.path.radius = 1 := by
  refine ⟨rfl, _, sample_make, ?_⟩
  exact claim_C8_theorem sampleKernel Thread.defaults sampleWorkplane
    sampleWire _ rfl sample_make

/-- C9: a successful Thread.make returns the swept solid passed through
the repair step: a solid passing the validity check is returned unchanged,
an invalid one is sewn and rebuilt as a solid, and in either case the
result (possibly still invalid) is returned without an exception for
geometric invalidity. -/
theorem claim_C9_theorem (k : Kernel) (t : Thread) (profile : Workplane)
    (r : ThreadResult) (s : Shape)
    (h : Thread.make k t profile = .ok r) :
    r.solid = repairSolid k (k.sweep r.crossSection r.path) ∧
    (s.isValid = true → repairSolid k s = s) ∧
    (s.isValid = false →
      repairSolid k s = k.makeSolid (k.sewShape s)) := by
  refine ⟨?_, ?_, ?_⟩
  · unfold Thread.make at h
    cases hcs : profile_to_cross_section (.workplane profile) t.lefthand
        (.int 20) with
    | error e => rw [hcs] at h; cases h
    | ok cs =>
        rw [hcs] at h
        cases hv : profile.val with
        | notWire => rw [hv] at h; cases h
        | wire w =>
            rw [hv] at h
            simp only [bind, Except.bind, pure, Except.pure] at h
            cases h
            rfl
  · intro hs
    unfold repairSolid
    rw [hs]
    rfl
  · intro hs
    unfold repairSolid
    rw [hs]
    rfl

theorem claim_C9_witness :
    ∃ r, Thread.make sampleKernel Thread.defaults sampleWorkplane = .ok r ∧
      r.solid = repairSolid sampleKernel
        (sampleKernel.sweep r.crossSection r.path) ∧
      repairSolid sampleKernel ⟨true, 5⟩ = ⟨true, 5⟩ ∧
      repairSolid sampleKernel ⟨false, 5⟩ =
        sampleKernel.makeSolid (sampleKernel.sewShape ⟨false, 5⟩) := by
  refine ⟨_, sample_make, ?_, ?_, ?_⟩
  · exact (claim_C9_theorem sampleKernel Thread.defaults sampleWorkplane _
      ⟨true, 5⟩ sample_make).1
  · exact (claim_C9_theorem sampleKernel Thread.defaults sampleWorkplane _
      ⟨true, 5⟩ sample_make).2.1 rfl
  · exact (claim_C9_theorem sampleKernel Thread.defaults sampleWorkplane _
      ⟨false, 5⟩ sample_make).2.2 rfl

theorem edgeOp_ok (lefthand : Bool) (lead : ℚ) (e : Edge) (vc : ℤ)
    (h : splineDispatched e → vc ≠ 0) :
    ∃ op, edgeOp lefthand lead e vc = .ok op := by
  unfold edgeOp
  split_ifs with h1 h2
  · exact ⟨_, rfl⟩
  · exact ⟨_, rfl⟩
  · have hvc : vc ≠ 0 := h ⟨h1, h2⟩
    have hvc' : ((vc : ℚ)) ≠ 0 := Int.cast_ne_zero.mpr hvc
    unfold apply_spline
    cases e.geomType <;>
      simp [pyDiv, hvc', bind, Except.bind, pure, Except.pure]

theorem mapM_edgeOp_ok (lefthand : Bool) (lead : ℚ) :
    ∀ (ps : List (Edge × ℤ)),
      (∀ p ∈ ps, splineDispatched p.1 → p.2 ≠ 0) →
      ∃ ops, ps.mapM (fun p => edgeOp lefthand lead p.1 p.2) = .ok ops := by
  intro ps
  induction ps with
  | nil =>
      intro _
      exact ⟨[], by rw [List.mapM_nil]; rfl⟩
  | cons a as ih =>
      intro h
      obtain ⟨op, hop⟩ := edgeOp_ok lefthand lead a.1 a.2 (h a (by simp))
      obtain ⟨ops, hops⟩ := ih (fun p hp => h p (by simp [hp]))
      exact ⟨op :: ops, by rw [List.mapM_cons, hop, hops]; rfl⟩

theorem badWire_counts :
    resolveCounts (.int 20) badWire.edges badWire.length = .ok [0, 20] := by
  show resolveCountsInt 20 [badEdgeSlant, badEdgeRest] (10 ^ 9) = .ok [0, 20]
  unfold resolveCountsInt
  rw [List.mapM_cons, List.mapM_cons, List.mapM_nil]
  have hd1 : pyDiv badEdgeSlant.length ((10 : ℚ) ^ 9) = .ok (1 / 10 ^ 9) := by
    norm_num [pyDiv, badEdgeSlant, mkEdge]
  have hd2 : pyDiv badEdgeRest.length ((10 : ℚ) ^ 9) =
      .ok (999999999 / 10 ^ 9) := by
    norm_num [pyDiv, badEdgeRest, mkEdge]
  simp only [hd1, hd2, Except.map, bind, Except.bind, pure, Except.pure]
  norm_num [round7, roundHalfEven]

theorem badEdgeSlant_spline_err (lefthand : Bool) (lead : ℚ) :
    edgeOp lefthand lead badEdgeSlant 0 = .error .zeroDivisionError := by
  rw [edgeOp, if_neg, if_neg]
  · unfold apply_spline
    show (pyDiv badEdgeSlant.length ((0 : ℤ) : ℚ)) >>= _ = _
    norm_num [pyDiv]
  · intro hc
    have h2 := hc.2
    norm_num [badEdgeSlant, mkEdge] at h2
  · intro hc
    have h2 := hc.2
    norm_num [badEdgeSlant, mkEdge] at h2

/-- C10 (implicit safety): the zero-divisor guard of apply_spline is the
vertex count itself — a spline-dispatched edge whose resolved count is 0
raises ZeroDivisionError before any point is sampled, which the integer
budget can produce (badWire resolves to counts [0, 20] under budget 20 and
the whole conversion raises ZeroDivisionError); conversely an explicit
count list giving every spline-dispatched edge a count of at least 1 lets
the conversion succeed. -/
theorem claim_C10_theorem (lefthand : Bool) (lead : ℚ) (e : Edge)
    (wire : Wire) (l : List ℤ)
    (hsp : splineDispatched e)
    (hlen : l.length = wire.edges.length)
    (hne : wire.edges ≠ [])
    (hcounts : ∀ p ∈ wire.edges.zip l, splineDispatched p.1 → 1 ≤ p.2) :
    apply_spline lefthand lead e 0 = .error .zeroDivisionError ∧
    edgeOp lefthand lead e 0 = .error .zeroDivisionError ∧
    (∃ cs, p2csCore wire lefthand (.intList l) = .ok cs) ∧
    profile_to_cross_section (.workplane ⟨.wire badWire⟩) lefthand
      (.int 20) = .error .zeroDivisionError ∧
    resolveCounts (.int 20) badWire.edges badWire.length = .ok [0, 20] := by
  have hspline : ∀ e' : Edge,
      apply_spline lefthand lead e' 0 = .error .zeroDivisionError := by
    intro e'
    unfold apply_spline
    cases e'.geomType <;>
      · show (pyDiv _ ((0 : ℤ) : ℚ)) >>= _ = _
        norm_num [pyDiv]
  refine ⟨hspline e, ?_, ?_, ?_, badWire_counts⟩
  · rw [edgeOp, if_neg hsp.1, if_neg hsp.2]
    exact hspline e
  · obtain ⟨ops, hops⟩ := mapM_edgeOp_ok lefthand wire.lead
      (wire.edges.zip l) (fun p hp hd => by
        have := hcounts p hp hd
        omega)
    have hrc : resolveCounts (.intList l) wire.edges wire.length = .ok l := by
      show (if l.length ≠ wire.edges.length then
          (Except.error (PyErr.valueError "") : Except PyErr (List ℤ))
        else Except.ok l) = Except.ok l
      rw [if_neg (by omega)]
    cases hed : wire.edges with
    | nil => exact absurd hed hne
    | cons e0 rest =>
        refine ⟨⟨transform lefthand wire.lead e0.startPoint, ops, true⟩, ?_⟩
        unfold p2csCore
        rw [hrc]
        show p2csBuild wire lefthand l = _
        unfold p2csBuild
        rw [hed] at hops ⊢
        rw [hops]
        rfl
  · show p2csCore badWire lefthand (.int 20) = .error .zeroDivisionError
    unfold p2csCore
    rw [badWire_counts]
    show p2csBuild badWire lefthand [0, 20] = .error .zeroDivisionError
    have hstep : p2csBuild badWire lefthand [0, 20] =
        ([(badEdgeSlant, (0 : ℤ)), (badEdgeRest, (20 : ℤ))].mapM
          (fun p => edgeOp lefthand badWire.lead p.1 p.2)) >>=
          (fun ops =>
            (pure ⟨transform lefthand badWire.lead badEdgeSlant.startPoint,
              ops, true⟩ : Except PyErr CrossSection)) := rfl
    rw [hstep, List.mapM_cons, badEdgeSlant_spline_err]
    rfl

theorem claim_C10_witness :
    splineDispatched badEdgeSlant ∧
    ([(0 : ℤ)].length = sampleWire.edges.length ∧ sampleWire.edges ≠ []) ∧
    (apply_spline false badWire.lead badEdgeSlant 0 =
        .error .zeroDivisionError ∧
     edgeOp false badWire.lead badEdgeSlant 0 = .error .zeroDivisionError ∧
     (∃ cs, p2csCore sampleWire false (.intList [0]) = .ok cs) ∧
     profile_to_cross_section (.workplane ⟨.wire badWire⟩) false (.int 20) =
       .error .zeroDivisionError ∧
     resolveCounts (.int 20) badWire.edges badWire.length = .ok [0, 20]) := by
  have hsp : splineDispatched badEdgeSlant := by
    constructor <;>
      · intro hc
        have h2 := hc.2
        norm_num [badEdgeSlant, mkEdge] at h2
  refine ⟨hsp, ⟨rfl, by simp [sampleWire]⟩, ?_⟩
  exact claim_C10_theorem false badWire.lead badEdgeSlant sampleWire [0]
    hsp rfl (by simp [sampleWire])
    (fun p hp hd => by
      simp only [sampleWire, List.zip_cons_cons, List.zip_nil_right,
        List.mem_singleton] at hp
      subst hp
      exact absurd hd (by
        intro hdd
        have h2 := hdd.2
        exact h2 ⟨rfl, by norm_num [sampleEdgeH, mkEdge]⟩))

/-!
Rounding-error bounds for the vertex-count resolution (C1).
-/

theorem roundHalfEven_err (q : ℚ) :
    |((roundHalfEven q : ℤ) : ℚ) - q| ≤ 1 / 2 := by
  have h1 := Int.floor_le q
  have h2 := Int.lt_floor_add_one q
  unfold roundHalfEven
  split_ifs with ha hb hc <;>
    (rw [abs_le]; constructor <;> (push_cast; linarith))

theorem roundHalfEven_nonneg (q : ℚ) (h : 0 ≤ q) :
    0 ≤ roundHalfEven q := by
  have hf : 0 ≤ ⌊q⌋ := Int.floor_nonneg.mpr h
  unfold roundHalfEven
  split_ifs <;> omega

theorem round7_err (q : ℚ) : |round7 q - q| ≤ 1 / (2 * 10 ^ 7) := by
  obtain ⟨hl, hr⟩ := abs_le.mp (roundHalfEven_err (q * 10 ^ 7))
  unfold round7
  rw [abs_le]
  constructor <;> linarith

theorem round7_nonneg (q : ℚ) (h : 0 ≤ q) : 0 ≤ round7 q := by
  have hr : 0 ≤ roundHalfEven (q * 10 ^ 7) :=
    roundHalfEven_nonneg (q * 10 ^ 7) (by positivity)
  have hr' : (0 : ℚ) ≤ ((roundHalfEven (q * 10 ^ 7) : ℤ) : ℚ) :=
    Int.cast_nonneg.mpr hr
  unfold round7
  exact div_nonneg hr' (by norm_num)

theorem c1_count_nonneg (B : ℤ) (hB : 0 ≤ B) (p : ℚ) (hp : 0 ≤ p) :
    0 ≤ Int.ceil (round7 p * (B : ℚ)) := by
  have h1 : 0 ≤ round7 p := round7_nonneg p hp
  have h2 : (0 : ℚ) ≤ round7 p * (B : ℚ) :=
    mul_nonneg h1 (by exact_mod_cast hB)
  exact Int.ceil_nonneg h2

theorem c1_elem_bound (B : ℤ) (hB : 0 ≤ B) (p : ℚ) (hp : 0 ≤ p) :
    |((Int.ceil (round7 p * (B : ℚ)) : ℤ) : ℚ) - (B : ℚ) * p|
      ≤ 1 + (B : ℚ) / (2 * 10 ^ 7) := by
  obtain ⟨hl, hr⟩ := abs_le.mp (round7_err p)
  have hBQ : (0 : ℚ) ≤ (B : ℚ) := by exact_mod_cast hB
  have h1 : (p - 1 / (2 * 10 ^ 7)) * (B : ℚ) ≤ round7 p * (B : ℚ) :=
    mul_le_mul_of_nonneg_right (by linarith) hBQ
  have h2 : round7 p * (B : ℚ) ≤ (p + 1 / (2 * 10 ^ 7)) * (B : ℚ) :=
    mul_le_mul_of_nonneg_right (by linarith) hBQ
  have h3 := Int.le_ceil (round7 p * (B : ℚ))
  have h4 := Int.ceil_lt_add_one (round7 p * (B : ℚ))
  rw [abs_le]
  constructor <;> nlinarith [h1, h2, h3, h4]

theorem abs_sub_add_le {a b c d x y : ℚ} (h1 : |a - b| ≤ x)
    (h2 : |c - d| ≤ y) : |(a + c) - (b + d)| ≤ x + y := by
  have h : (a + c) - (b + d) = (a - b) + (c - d) := by ring
  rw [h]
  calc |(a - b) + (c - d)| ≤ |a - b| + |c - d| := abs_add _ _
    _ ≤ x + y := by linarith

theorem c1_sum_bound (B : ℤ) (hB : 0 ≤ B) (L : ℚ) :
    ∀ edges : List Edge, (∀ e ∈ edges, 0 ≤ e.length / L) →
    |(((edges.map (fun e =>
          Int.ceil (round7 (e.length / L) * (B : ℚ)))).sum : ℤ) : ℚ)
        - (B : ℚ) * ((edges.map (fun e => e.length / L)).sum)|
      ≤ (edges.length : ℚ) * (1 + (B : ℚ) / (2 * 10 ^ 7)) := by
  intro edges
  induction edges with
  | nil => simp
  | cons e es ih =>
      intro hpos
      have he := c1_elem_bound B hB (e.length / L) (hpos e (by simp))
      have hrest := ih (fun e' he' => hpos e' (by simp [he']))
      simp only [List.map_cons, List.sum_cons, List.length_cons]
      rw [Int.cast_add, Nat.cast_add, Nat.cast_one, mul_add]
      refine le_trans (abs_sub_add_le he hrest) ?_
      exact le_of_eq (by ring)

theorem sum_map_div (L : ℚ) : ∀ l : List Edge,
    (l.map (fun e => e.length / L)).sum = (l.map Edge.length).sum / L := by
  intro l
  induction l with
  | nil => simp
  | cons e es ih => simp [List.sum_cons, ih, add_div]

theorem resolveCountsInt_ok (B : ℤ) (L : ℚ) (hL : L ≠ 0) :
    ∀ edges : List Edge, resolveCountsInt B edges L =
      .ok (edges.map (fun e => Int.ceil (round7 (e.length / L) * (B : ℚ)))) := by
  intro edges
  induction edges with
  | nil =>
      show ([] : List Edge).mapM _ = _
      rw [List.mapM_nil]
      rfl
  | cons e es ih =>
      have hd : pyDiv e.length L = .ok (e.length / L) := by
        rw [pyDiv, if_neg hL]
      have ih' : es.mapM (fun e =>
          (pyDiv e.length L).map (fun q => Int.ceil (round7 q * (B : ℚ)))) =
            .ok (es.map (fun e =>
              Int.ceil (round7 (e.length / L) * (B : ℚ)))) := ih
      show (e :: es).mapM (fun e =>
          (pyDiv e.length L).map (fun q => Int.ceil (round7 q * (B : ℚ)))) = _
      rw [List.mapM_cons, hd, ih']
      rfl

/-- C1 (amended): for an integer budget B at least 0, over a wire whose
edge lengths are nonnegative and sum to the total length L > 0, the
resolved counts are exactly ceil(round(L_i / L, 7) * B), each count is at
least 0, and the sum of the counts differs from B by at most
n * (1 + B / (2 * 10^7)) — the ceil slack of one per segment plus the
7-decimal rounding error amplified by B. -/
theorem claim_C1_amended (B : ℤ) (edges : List Edge) (L : ℚ)
    (hB : 0 ≤ B) (hL : 0 < L)
    (hpos : ∀ e ∈ edges, 0 ≤ e.length)
    (hsum : (edges.map Edge.length).sum = L) :
    resolveCountsInt B edges L =
      .ok (edges.map (fun e => Int.ceil (round7 (e.length / L) * (B : ℚ)))) ∧
    (∀ c ∈ edges.map (fun e => Int.ceil (round7 (e.length / L) * (B : ℚ))),
      0 ≤ c) ∧
    |(((edges.map (fun e =>
          Int.ceil (round7 (e.length / L) * (B : ℚ)))).sum : ℤ) : ℚ)
        - (B : ℚ)|
      ≤ (edges.length : ℚ) * (1 + (B : ℚ) / (2 * 10 ^ 7)) := by
  refine ⟨resolveCountsInt_ok B L hL.ne' edges, ?_, ?_⟩
  · intro c hc
    rw [List.mem_map] at hc
    obtain ⟨e, he, hce⟩ := hc
    rw [← hce]
    exact c1_count_nonneg B hB (e.length / L) (div_nonneg (hpos e he) hL.le)
  · have hq := c1_sum_bound B hB L edges
      (fun e he => div_nonneg (hpos e he) hL.le)
    have hps : (edges.map (fun e => e.length / L)).sum = 1 := by
      rw [sum_map_div, hsum, div_self hL.ne']
    rw [hps, mul_one] at hq
    exact hq

/-- C1 (counterexample): the claim as stated fails on the code.  With the
three-edge wire `ceEdges` (lengths summing to 10^9) and budget
B = 10^8, all three length ratios round upward at the seventh decimal,
the resolved counts are [25000000, 25000000, 50000010], and their sum
exceeds B by 10 > n = 3.  With two unit edges and the negative budget
B = -20 the resolved counts are [-10, -10], violating count >= 0. -/
theorem claim_C1_counterexample :
    (ceEdges.map Edge.length).sum = 10 ^ 9 ∧
    ceEdges.length = 3 ∧
    resolveCountsInt 100000000 ceEdges (10 ^ 9) =
      .ok [25000000, 25000000, 50000010] ∧
    ([25000000, 25000000, 50000010] : List ℤ).sum - 100000000 = 10 ∧
    ¬(|([25000000, 25000000, 50000010] : List ℤ).sum - 100000000| ≤ 3) ∧
    (negEdges.map Edge.length).sum = 2 ∧
    resolveCountsInt (-20) negEdges 2 = .ok [-10, -10] ∧
    ¬((0 : ℤ) ≤ -10) := by
  refine ⟨by norm_num [ceEdges, mkEdge], rfl, ?_, by decide, by decide,
    by norm_num [negEdges, mkEdge], ?_, by decide⟩
  · show resolveCountsInt 100000000
      [mkEdge .OTHER 0 0 249999951 1, mkEdge .OTHER 0 0 249999951 1,
        mkEdge .OTHER 0 0 500000098 1] (10 ^ 9) =
      .ok [25000000, 25000000, 50000010]
    unfold resolveCountsInt
    rw [List.mapM_cons, List.mapM_cons, List.mapM_cons, List.mapM_nil]
    have hd1 : pyDiv (mkEdge .OTHER 0 0 249999951 1).length ((10 : ℚ) ^ 9) =
        .ok (249999951 / 10 ^ 9) := by
      norm_num [pyDiv, mkEdge]
    have hd3 : pyDiv (mkEdge .OTHER 0 0 500000098 1).length ((10 : ℚ) ^ 9) =
        .ok (500000098 / 10 ^ 9) := by
      norm_num [pyDiv, mkEdge]
    simp only [hd1, hd3, Except.map, bind, Except.bind, pure, Except.pure]
    norm_num [round7, roundHalfEven]
  · show resolveCountsInt (-20)
      [mkEdge .OTHER 0 0 1 1, mkEdge .OTHER 0 0 1 1] 2 = .ok [-10, -10]
    unfold resolveCountsInt
    rw [List.mapM_cons, List.mapM_cons, List.mapM_nil]
    have hd : pyDiv (mkEdge .OTHER 0 0 1 1).length (2 : ℚ) =
        .ok (1 / 2) := by
      norm_num [pyDiv, mkEdge]
    simp only [hd, Except.map, bind, Except.bind, pure, Except.pure]
    norm_num [round7, roundHalfEven]
    rw [show ((-10 : ℚ)) = (((-10 : ℤ)) : ℚ) from by norm_num,
      Int.ceil_intCast]

theorem claim_C1_witness :
    (0 : ℤ) ≤ 20 ∧ (0 : ℚ) < 4 ∧
    (∀ e ∈ witEdges, 0 ≤ e.length) ∧
    (witEdges.map Edge.length).sum = 4 ∧
    (resolveCountsInt 20 witEdges 4 =
        .ok (witEdges.map (fun e =>
          Int.ceil (round7 (e.length / 4) * ((20 : ℤ) : ℚ)))) ∧
      (∀ c ∈ witEdges.map (fun e =>
          Int.ceil (round7 (e.length / 4) * ((20 : ℤ) : ℚ))), 0 ≤ c) ∧
      |(((witEdges.map (fun e =>
            Int.ceil (round7 (e.length / 4) * ((20 : ℤ) : ℚ)))).sum : ℤ) : ℚ)
          - ((20 : ℤ) : ℚ)|
        ≤ (witEdges.length : ℚ) * (1 + ((20 : ℤ) : ℚ) / (2 * 10 ^ 7))) := by
  have hpos : ∀ e ∈ witEdges, 0 ≤ e.length := by
    intro e he
    simp only [witEdges, List.mem_cons, List.mem_singleton] at he
    rcases he with h | h | h <;> first
      | (subst h; norm_num [mkEdge])
      | cases h
  have hsum : (witEdges.map Edge.length).sum = 4 := by
    norm_num [witEdges, mkEdge]
  exact ⟨by norm_num, by norm_num, hpos, hsum,
    claim_C1_amended 20 witEdges 4 (by norm_num) (by norm_num) hpos hsum⟩

end Cqparts
